import Mathlib

/-!
Verification of the WacomStu540 WebHID driver (src/WacomStu540.js).

Shallow embedding conventions:
* JavaScript byte buffers and DataViews are modelled as `List ℕ` of byte values;
  out-of-range DataView reads are modelled with default 0 (the pen reports the
  driver reads always carry enough bytes, and theorems state lengths where needed).
* JavaScript numbers appearing in exact positions (pressure normalisation, scale
  factors, stroke widths, the 0.02 threshold) are modelled as rationals `ℚ`;
  `Math.round` is the Mathlib `round` (floor of x + 1/2, which agrees with the
  JavaScript half-up rounding on the non-negative values produced here).
* JavaScript strings built from bytes (device name, serial) are modelled as the
  lists of character codes; the firmware dotted string is modelled as the list of
  its four byte components.
* Arrays created by `Array(n)` with unassigned (undefined) holes are modelled as
  `List (Option ℕ)`, with `none` for undefined; `Uint8Array` coercion of
  undefined to 0 is `Option.getD 0`.
-/

namespace WacomStu540

/-! ## Byte-level helpers (DataView accessors, WacomStu540.js lines 844-893) -/

/-- Big-endian 16-bit read, `DataView.getUint16(off)` with default byte order. -/
def getUint16BE (data : List ℕ) (off : ℕ) : ℕ :=
  256 * data.getD off 0 + data.getD (off + 1) 0

/-- Little-endian 16-bit read, `DataView.getUint16(off, true)`. -/
def getUint16LE (data : List ℕ) (off : ℕ) : ℕ :=
  data.getD off 0 + 256 * data.getD (off + 1) 0

/-- Model of `#dataViewString(dv, offset, length)` (lines 878-893): collect bytes
from `offset` up to `offset+length` (or the end of the view), stopping at the
first NUL; the result is the list of collected character codes. -/
def dataViewString (dv : List ℕ) (off : ℕ) (len : Option ℕ) : List ℕ :=
  let e := match len with
    | some l => min (off + l) dv.length
    | none => dv.length
  ((dv.take e).drop off).takeWhile (fun b => b ≠ 0)

/-! ## Command report ids (`this.#command`, lines 66-82) -/

def penDataId : ℕ := 0x01
def informationId : ℕ := 0x08
def capabilityId : ℕ := 0x09
def writingModeId : ℕ := 0x0E
def eSerialId : ℕ := 0x0F
def clearScreenId : ℕ := 0x20
def inkModeId : ℕ := 0x21
def writeImageStartId : ℕ := 0x25
def writeImageDataId : ℕ := 0x26
def writeImageEndId : ℕ := 0x27
def writingAreaId : ℕ := 0x2A
def brightnessId : ℕ := 0x2B
def backgroundColorId : ℕ := 0x2E
def penColorAndWidthId : ℕ := 0x2D
def penDataTimingId : ℕ := 0x34

/-- `this.#config.chunkSize` (line 36). -/
def chunkSize : ℕ := 253

/-- `this.#config.imageFormat24BGR` (line 39). -/
def imageFormat24BGR : ℕ := 0x04

/-! ## Pen sample decoding (`#onHidInputReport`, lines 657-690) -/

/-- The capability fields of the negotiated profile used by the decoder. -/
structure PenProfile where
  tabletMaxX : ℕ
  tabletMaxY : ℕ
  tabletMaxPressure : ℕ
  width : ℕ
  height : ℕ
deriving Repr, DecidableEq

/-- `scaleFactorX = tabletMaxX / width` (connect, line 240). -/
def scaleFactorX (prof : PenProfile) : ℚ := (prof.tabletMaxX : ℚ) / prof.width

/-- `scaleFactorY = tabletMaxY / height` (connect, line 241). -/
def scaleFactorY (prof : PenProfile) : ℚ := (prof.tabletMaxY : ℚ) / prof.height

/-- One decoded pen packet (the object built at lines 663-679). -/
structure Sample where
  rdy : Bool
  sw : Bool
  press : ℕ
  cpress : ℚ
  cx : ℤ
  cy : ℤ
  x : ℕ
  y : ℕ
  time : Option ℕ
  seq : Option ℕ
deriving Repr, DecidableEq

/-- Decoding of a pen-data report body (lines 663-679): status word is the
big-endian 16-bit word at offset 0; `rdy` is bit 15, `sw` is bit 12, raw
pressure the low 10 bits; X/Y are big-endian 16-bit words at offsets 2 and 4;
display coordinates divide by the per-axis scale factor and round; the timing
report id additionally carries time and sequence words at offsets 6 and 8. -/
def decodePenPacket (prof : PenProfile) (reportId : ℕ) (data : List ℕ) : Sample :=
  let w := getUint16BE data 0
  let base : Sample :=
    { rdy := (w &&& 0x8000) != 0
      sw := (w &&& 0x1000) != 0
      press := w &&& 0x3FF
      cpress := ((w &&& 0x3FF : ℕ) : ℚ) / prof.tabletMaxPressure
      cx := round ((getUint16BE data 2 : ℚ) / scaleFactorX prof)
      cy := round ((getUint16BE data 4 : ℚ) / scaleFactorY prof)
      x := getUint16BE data 2
      y := getUint16BE data 4
      time := none
      seq := none }
  if reportId = penDataTimingId then
    { base with time := some (getUint16BE data 6), seq := some (getUint16BE data 8) }
  else base

/-- `#onHidInputReport` produces a sample exactly for the two pen report ids
(line 661); other report ids are ignored. -/
def onHidInputReport (prof : PenProfile) (reportId : ℕ) (data : List ℕ) : Option Sample :=
  if reportId = penDataId ∨ reportId = penDataTimingId then
    some (decodePenPacket prof reportId data)
  else none

/-! ## Stroke reconstruction (`#drawSignaturePathToCanvas`, lines 721-744,
`#isInWritingArea` lines 752-768, `#startPolyLine` lines 774-799) -/

/-- The configuration read by the reconstruction: ink mode, writing mode,
pen width class, pen color and writing area (fields of `this.#config`). -/
structure InkCfg where
  inkMode : Bool
  writingMode : ℕ
  penWidth : ℕ
  penColor : ℕ × ℕ × ℕ
  writingArea : Option (ℤ × ℤ × ℤ × ℤ)
deriving Repr, DecidableEq

/-- `#isInWritingArea(x, y)` (lines 752-768): an unset area admits everything;
otherwise reject strictly outside each of the four bounds. -/
def isInWritingArea (cfg : InkCfg) (x y : ℤ) : Bool :=
  match cfg.writingArea with
  | none => true
  | some (x1, y1, x2, y2) =>
    if x < x1 ∨ x > x2 then false
    else if y < y1 ∨ y > y2 then false
    else true

/-- The fixed stroke widths of `#startPolyLine` (lines 784-789); the initial
value 1 survives for a pen width class outside 0-3. -/
def fixedStrokeWidth (penWidth : ℕ) : ℚ :=
  match penWidth with
  | 0 => 1/2
  | 1 => 2
  | 2 => 3
  | 3 => 9/2
  | _ => 1

/-- Width chosen by `#startPolyLine` during incremental drawing: the last
element of the signature path is the sample currently being processed, so in
writing mode 1 the width derives from the current sample pressure. -/
def segWidthInc (cfg : InkCfg) (s : Sample) : ℚ :=
  if cfg.writingMode = 1 then 1 + s.cpress * (3/2) else fixedStrokeWidth cfg.penWidth

/-- Width chosen by `#startPolyLine` during a from-scratch replay
(`#drawSignaturePathToCanvas(0)` over the full log): the last element of the
signature path is the final sample of the whole log, so in writing mode 1
every segment gets a width derived from that final pressure. -/
def segWidthBatch (cfg : InkCfg) (lastCp : ℚ) : ℚ :=
  if cfg.writingMode = 1 then 1 + lastCp * (3/2) else fixedStrokeWidth cfg.penWidth

/-- One SVG polyline: stroke width, stroke color and the ordered points. -/
structure Seg where
  width : ℚ
  color : ℕ × ℕ × ℕ
  points : List (ℤ × ℤ)
deriving Repr, DecidableEq

/-- The guard of the drawing branch (line 726):
`point.rdy && point.sw && inkMode && isInWritingArea(cx, cy)`. -/
def inked (cfg : InkCfg) (s : Sample) : Bool :=
  s.rdy && s.sw && cfg.inkMode && isInWritingArea cfg s.cx s.cy

/-- One iteration of the loop body of `#drawSignaturePathToCanvas`
(lines 723-743). The state is the list of polylines already in the SVG whose
reference was dropped (`closed`) together with the currently open polyline;
`w` is the stroke width `#startPolyLine` would choose at this step and `prev`
is the predecessor of the sample in the signature path. -/
def stepWith (cfg : InkCfg) (w : ℚ) (prev : Option Sample)
    (st : List Seg × Option Seg) (s : Sample) : List Seg × Option Seg :=
  if inked cfg s then
    match st.2, prev with
    | none, _ =>
        (st.1, some { width := w, color := cfg.penColor, points := [(s.cx, s.cy)] })
    | some sg, some p =>
        if |s.cpress - p.cpress| > 1/50 then
          (st.1 ++ [{ sg with points := sg.points ++ [(s.cx, s.cy)] }],
           some { width := w, color := cfg.penColor, points := [(s.cx, s.cy)] })
        else
          (st.1, some { sg with points := sg.points ++ [(s.cx, s.cy)] })
    | some sg, none =>
        (st.1, some { sg with points := sg.points ++ [(s.cx, s.cy)] })
  else
    match st.2 with
    | some sg => (st.1 ++ [sg], none)
    | none => st

/-- Incremental reconstruction: every arriving sample is pushed onto the path
and `#drawSignaturePathToCanvas(path.length - 1)` processes exactly that sample
(lines 682-685), so `#startPolyLine` sees the current sample as the last path
element. -/
def runInc (cfg : InkCfg) : Option Sample → List Seg × Option Seg → List Sample →
    List Seg × Option Seg
  | _, st, [] => st
  | prev, st, s :: rest =>
      runInc cfg (some s) (stepWith cfg (segWidthInc cfg s) prev st s) rest

/-- Incremental reconstruction of a full sample log from the empty state. -/
def reconstructInc (cfg : InkCfg) (log : List Sample) : List Seg × Option Seg :=
  runInc cfg none ([], none) log

/-- Replay loop: `#drawSignaturePathToCanvas(0)` over the complete log, where
`#startPolyLine` always reads the pressure of the final log entry. -/
def runBatch (cfg : InkCfg) (wNew : ℚ) : Option Sample → List Seg × Option Seg →
    List Sample → List Seg × Option Seg
  | _, st, [] => st
  | prev, st, s :: rest =>
      runBatch cfg wNew (some s) (stepWith cfg wNew prev st s) rest

/-- From-scratch recomputation over the full log. -/
def reconstructBatch (cfg : InkCfg) (log : List Sample) : List Seg × Option Seg :=
  runBatch cfg (segWidthBatch cfg ((log.getLast?.map Sample.cpress).getD 0))
    none ([], none) log

/-- All polylines appended to the SVG element, the still-open one included. -/
def allSegs (st : List Seg × Option Seg) : List Seg :=
  st.1 ++ st.2.toList

/-- Number of emitted polylines. -/
def segCount (st : List Seg × Option Seg) : ℕ :=
  st.1.length + st.2.toList.length

/-- Count of threshold crossings after a fixed predecessor `p`. -/
def crossAux (p : Sample) : List Sample → ℕ
  | [] => 0
  | s :: rest => (if |s.cpress - p.cpress| > 1/50 then 1 else 0) + crossAux s rest

/-- Count of consecutive-sample pairs whose normalized pressures differ by
more than the 0.02 threshold. -/
def crossings : List Sample → ℕ
  | [] => 0
  | s :: rest => crossAux s rest

/-- Junction relation between consecutive polylines: the earlier one is
nonempty and ends at the point the later one starts with. -/
def junction (a b : Seg) : Prop :=
  a.points ≠ [] ∧ a.points.getLast? = b.points.head?

/-! ## Image chunking (`#splitToBulks`, lines 858-869) -/

/-- The chunk at index `i`: `Array(bulkSize)` filled with `arr[i*bulkSize + z]`,
which is undefined (`none`) past the end of `arr`. -/
def bulkAt (arr : List ℕ) (bulkSize i : ℕ) : List (Option ℕ) :=
  (List.range bulkSize).map (fun z => arr[i * bulkSize + z]?)

/-- `#splitToBulks(arr, bulkSize)` (lines 858-869): `Math.ceil(len/bulkSize)`
chunks, each of length `bulkSize`, the last padded with undefined entries. -/
def splitToBulks (arr : List ℕ) (bulkSize : ℕ) : List (List (Option ℕ)) :=
  (List.range ((arr.length + bulkSize - 1) / bulkSize)).map (bulkAt arr bulkSize)

/-- Occupied length of a chunk: the number of defined entries. -/
def occupiedLen (e : List (Option ℕ)) : ℕ :=
  (e.filterMap id).length

/-- Framing of one data packet, `new Uint8Array([e.length, 0].concat(e))`
(line 628): the declared length byte is the array length of the chunk, and
undefined entries coerce to 0. -/
def frameChunk (e : List (Option ℕ)) : List ℕ :=
  e.length :: 0 :: e.map (fun o => o.getD 0)

/-! ## setImage send sequence (lines 601-637) -/

/-- Driver-side HID transfer events: issuing a `sendFeatureReport`, observing
its completion, or issuing a `receiveFeatureReport`. -/
inductive HidEvt where
  | issue (reportId : ℕ) (payload : List ℕ)
  | complete (reportId : ℕ)
  | readReq (reportId : ℕ)
deriving Repr, DecidableEq

/-- The ordered transfer events `setImage` produces once it holds the sending
slot, as the JavaScript event loop executes lines 625-631: the start packet is
awaited; the data chunks are dispatched by `forEach` with an `async` callback,
whose promises are discarded, so every chunk issue happens synchronously with
no completion observed in between; the end packet is then issued and awaited.
Completions of the data chunk sends are still pending when the end packet is
issued and are therefore not part of the sequenced trace. -/
def setImageSendTrace (frames : List (List ℕ)) : List HidEvt :=
  ([HidEvt.issue writeImageStartId [imageFormat24BGR], HidEvt.complete writeImageStartId]
      ++ frames.map (fun f => HidEvt.issue writeImageDataId f))
    ++ [HidEvt.issue writeImageEndId [0], HidEvt.complete writeImageEndId]

/-- A trace is strictly sequential when it alternates issue/completion pairs:
each send is completed before the next one is issued. -/
def awaitedSequentially : List HidEvt → Bool
  | [] => true
  | HidEvt.issue r _ :: HidEvt.complete r' :: rest =>
      (r == r') && awaitedSequentially rest
  | _ => false

/-- Program-order actions of the `setImage` body once past validation and the
busy-wait (lines 620-636): set the sending flag, perform the sends, reset the
flag. Used to express that every send happens while the flag is held. -/
inductive Act where
  | setFlag (b : Bool)
  | send (reportId : ℕ) (payload : List ℕ)
deriving Repr, DecidableEq

def setImageBody (frames : List (List ℕ)) : List Act :=
  Act.setFlag true ::
    ((Act.send writeImageStartId [imageFormat24BGR]
        :: frames.map (fun f => Act.send writeImageDataId f))
      ++ [Act.send writeImageEndId [0], Act.setFlag false])

/-- The busy-wait loop of `setImage` (lines 611-619). `sending k` is the value
of `this.#deviceIsSending` observed at the k-th check (checks are 500 ms
apart); `k` doubles as the `tryCnt` counter. Returns the check index at which
the loop exits, or `none` for the `throw` after 20 waits. The fuel argument is
21 - k and never runs out when started at `(0, 21)`. -/
def busyPollAux (sending : ℕ → Bool) : ℕ → ℕ → Option ℕ
  | _, 0 => none
  | k, fuel + 1 =>
      if sending k then
        if k < 20 then busyPollAux sending (k + 1) fuel else none
      else some k

def busyPollLoop (sending : ℕ → Bool) : Option ℕ :=
  busyPollAux sending 0 21

/-- Errors `setImage` can throw (lines 602-618). -/
inductive ImgErr where
  | notConnected
  | invalidImageData
  | busy
deriving Repr, DecidableEq

/-- Result of a `setImage` call: transfer events actually performed, the error
thrown (if any), and the number of 500 ms waits spent in the busy loop. -/
structure ImgResult where
  trace : List HidEvt
  err : Option ImgErr
  waits : ℕ
deriving Repr, DecidableEq

/-- `setImage(imageData)` (lines 601-637): connection check, size validation,
busy-wait on the single-flight flag, then the chunked transfer. All errors are
thrown before any transfer event. -/
def setImageModel (connected : Bool) (width height : ℕ) (sending : ℕ → Bool)
    (imageData : List ℕ) : ImgResult :=
  if ¬ connected then ⟨[], some ImgErr.notConnected, 0⟩
  else if imageData.length ≠ width * height * 3 then ⟨[], some ImgErr.invalidImageData, 0⟩
  else
    match busyPollLoop sending with
    | none => ⟨[], some ImgErr.busy, 20⟩
    | some k =>
        ⟨setImageSendTrace ((splitToBulks imageData chunkSize).map frameChunk), none, k⟩

/-! ## Parameterized setters (lines 410-427, 435-453, 510-522) -/

inductive SetErr where
  | notConnected
  | invalidParameter
deriving Repr, DecidableEq

/-- `setPenColorAndWidth(color, width)` (lines 410-427): connection check, then
width validation against {0,1,2,3}, then a single feature-report write whose
payload is the RGB triple followed by the width byte. The color argument is
the already-parsed RGB triple of the `#RRGGBB` string. Returns the transfer
events performed and the error thrown, if any. -/
def setPenColorAndWidth (connected : Bool) (color : ℕ × ℕ × ℕ) (width : ℤ) :
    List HidEvt × Option SetErr :=
  if ¬ connected then ([], some SetErr.notConnected)
  else if ¬ (width = 0 ∨ width = 1 ∨ width = 2 ∨ width = 3) then
    ([], some SetErr.invalidParameter)
  else
    ([HidEvt.issue penColorAndWidthId [color.1, color.2.1, color.2.2, width.toNat]], none)

/-- `setWritingMode(mode)` (lines 510-522): connection check, validation
against {0,1}, then the write. -/
def setWritingMode (connected : Bool) (mode : ℤ) : List HidEvt × Option SetErr :=
  if ¬ connected then ([], some SetErr.notConnected)
  else if ¬ (mode = 0 ∨ mode = 1) then ([], some SetErr.invalidParameter)
  else ([HidEvt.issue writingModeId [mode.toNat]], none)

/-- `setBrightness(intensity)` (lines 435-453): connection check, validation
against {0,1,2,3}, then a read of the current value and a write only when the
value differs. `reads` gives the device response to the brightness read. -/
def setBrightness (connected : Bool) (reads : ℕ → List ℕ) (intensity : ℤ) :
    List HidEvt × Option SetErr :=
  if ¬ connected then ([], some SetErr.notConnected)
  else if ¬ (intensity = 0 ∨ intensity = 1 ∨ intensity = 2 ∨ intensity = 3) then
    ([], some SetErr.invalidParameter)
  else
    let dv := reads brightnessId
    if (dv.getD 1 0 : ℤ) = intensity then ([HidEvt.readReq brightnessId], none)
    else
      ([HidEvt.readReq brightnessId,
        HidEvt.issue brightnessId [intensity.toNat, 0]], none)

/-! ## Capability negotiation (`connect`, lines 233-285, and `getTabletInfo`,
lines 291-297) -/

/-- The negotiated part of `this.#config` (lines 40-60); every field is `none`
until the corresponding read during `connect` assigns it. -/
structure DriverConfig where
  width : Option ℕ
  height : Option ℕ
  scaleFactorX : Option ℚ
  scaleFactorY : Option ℚ
  tabletMaxPressure : Option ℕ
  maxReportRate : Option ℕ
  tabletMaxX : Option ℕ
  tabletMaxY : Option ℕ
  penColor : Option (ℕ × ℕ × ℕ)
  penWidth : Option ℕ
  backgroundColor : Option (ℕ × ℕ × ℕ)
  brightness : Option ℕ
  inkMode : Option Bool
  writingMode : Option ℕ
  writingArea : Option (ℕ × ℕ × ℕ × ℕ)
  deviceName : Option (List ℕ)
  firmware : Option (List ℕ)
  eSerial : Option (List ℕ)
deriving Repr, DecidableEq

/-- The constructor state of `this.#config`: all negotiated fields null. -/
def initialConfig : DriverConfig :=
  ⟨none, none, none, none, none, none, none, none, none, none, none, none,
   none, none, none, none, none, none⟩

/-- Assignments performed after the capability read (lines 233-241). -/
def applyCapability (cfg : DriverConfig) (dv : List ℕ) : DriverConfig :=
  let maxX := getUint16BE dv 1
  let maxY := getUint16BE dv 3
  let wd := getUint16BE dv 7
  let ht := getUint16BE dv 9
  { cfg with
    tabletMaxX := some maxX
    tabletMaxY := some maxY
    tabletMaxPressure := some (getUint16BE dv 5)
    width := some wd
    height := some ht
    maxReportRate := some (dv.getD 11 0)
    scaleFactorX := some ((maxX : ℚ) / wd)
    scaleFactorY := some ((maxY : ℚ) / ht) }

/-- Assignments after the information read (lines 244-246). -/
def applyInformation (cfg : DriverConfig) (dv : List ℕ) : DriverConfig :=
  { cfg with
    deviceName := some (dataViewString dv 1 (some 7))
    firmware := some [dv.getD 8 0, dv.getD 9 0, dv.getD 10 0, dv.getD 11 0] }

/-- Assignment after the eSerial read (lines 249-250). -/
def applyESerial (cfg : DriverConfig) (dv : List ℕ) : DriverConfig :=
  { cfg with eSerial := some (dataViewString dv 1 none) }

/-- Assignment after the background color read (lines 253-254). -/
def applyBackgroundColor (cfg : DriverConfig) (dv : List ℕ) : DriverConfig :=
  { cfg with backgroundColor := some (dv.getD 1 0, dv.getD 2 0, dv.getD 3 0) }

/-- Assignments after the pen color and width read (lines 258-260). -/
def applyPenColorAndWidth (cfg : DriverConfig) (dv : List ℕ) : DriverConfig :=
  { cfg with
    penColor := some (dv.getD 1 0, dv.getD 2 0, dv.getD 3 0)
    penWidth := some (dv.getD 4 0) }

/-- Assignment after the brightness read (lines 263-264). -/
def applyBrightness (cfg : DriverConfig) (dv : List ℕ) : DriverConfig :=
  { cfg with brightness := some (dv.getD 1 0) }

/-- Assignment after the ink mode read (lines 267-268). -/
def applyInkMode (cfg : DriverConfig) (dv : List ℕ) : DriverConfig :=
  { cfg with inkMode := some (dv.getD 1 0 == 1) }

/-- Assignment after the writing mode read (lines 271-272). -/
def applyWritingMode (cfg : DriverConfig) (dv : List ℕ) : DriverConfig :=
  { cfg with writingMode := some (dv.getD 1 0) }

/-- Assignment after the writing area read (line 275-276, little-endian). -/
def applyWritingArea (cfg : DriverConfig) (dv : List ℕ) : DriverConfig :=
  { cfg with
    writingArea := some (getUint16LE dv 1, getUint16LE dv 3, getUint16LE dv 5,
      getUint16LE dv 7) }

/-- The fixed read order of `connect` (lines 233-276) with the assignments
each read performs. -/
def connectSteps : List (ℕ × (DriverConfig → List ℕ → DriverConfig)) :=
  [(capabilityId, applyCapability),
   (informationId, applyInformation),
   (eSerialId, applyESerial),
   (backgroundColorId, applyBackgroundColor),
   (penColorAndWidthId, applyPenColorAndWidth),
   (brightnessId, applyBrightness),
   (inkModeId, applyInkMode),
   (writingModeId, applyWritingMode),
   (writingAreaId, applyWritingArea)]

/-- Run the reads in order; a failed read (the oracle returns `none`, modelling
a rejected `receiveFeatureReport`) aborts immediately, leaving the assignments
already made in place. The Boolean is the success of the whole sequence. -/
def runReads (reads : ℕ → Option (List ℕ)) :
    List (ℕ × (DriverConfig → List ℕ → DriverConfig)) → DriverConfig →
    Bool × DriverConfig
  | [], cfg => (true, cfg)
  | (rid, app) :: rest, cfg =>
      match reads rid with
      | none => (false, cfg)
      | some dv => runReads reads rest (app cfg dv)

/-- The negotiation part of `connect` (lines 233-285): the fixed sequence of
reads, mutating `this.#config` in place as each read completes. -/
def connectModel (reads : ℕ → Option (List ℕ)) (cfg : DriverConfig) :
    Bool × DriverConfig :=
  runReads reads connectSteps cfg

/-- `getTabletInfo()` (lines 291-297): a clone of `this.#config` together with
the connection flag; no check guards partially negotiated state. -/
def getTabletInfoModel (connected : Bool) (cfg : DriverConfig) : Bool × DriverConfig :=
  (connected, cfg)

/-! ## Helper lemmas -/

lemma land_ten_bits (w : ℕ) : w &&& 0x3FF = w % 1024 := by
  apply Nat.eq_of_testBit_eq
  intro i
  rw [Nat.testBit_and, show (1024 : ℕ) = 2 ^ 10 from rfl, Nat.testBit_mod_two_pow,
    show (0x3FF : ℕ) = 2 ^ 10 - 1 from rfl, Nat.testBit_two_pow_sub_one]
  exact Bool.and_comm _ _

/-! ## Claim C6 -/

/-- C6: for every input report carrying the pen-data or pen-data-with-timing
report id, the decoded sample has raw pressure equal to the low 10 bits of the
16-bit status word, normalized pressure equal to raw pressure divided by the
profile max pressure, X/Y read as big-endian 16-bit tablet units, and display
coordinates equal to the tablet coordinates divided by the per-axis scale
factor tabletMax/displaySize (independent per axis) rounded to the nearest
integer. -/
theorem C6_pen_sample_decoding (prof : PenProfile) (reportId : ℕ) (data : List ℕ)
    (hid : reportId = penDataId ∨ reportId = penDataTimingId) :
    onHidInputReport prof reportId data = some (decodePenPacket prof reportId data) ∧
    (decodePenPacket prof reportId data).press = getUint16BE data 0 % 1024 ∧
    (decodePenPacket prof reportId data).cpress =
      ((getUint16BE data 0 % 1024 : ℕ) : ℚ) / prof.tabletMaxPressure ∧
    (decodePenPacket prof reportId data).x = getUint16BE data 2 ∧
    (decodePenPacket prof reportId data).y = getUint16BE data 4 ∧
    (decodePenPacket prof reportId data).cx =
      round ((getUint16BE data 2 : ℚ) / ((prof.tabletMaxX : ℚ) / prof.width)) ∧
    (decodePenPacket prof reportId data).cy =
      round ((getUint16BE data 4 : ℚ) / ((prof.tabletMaxY : ℚ) / prof.height)) := by
  have honid : onHidInputReport prof reportId data =
      some (decodePenPacket prof reportId data) := by
    unfold onHidInputReport
    rw [if_pos hid]
  refine ⟨honid, ?_, ?_, ?_, ?_, ?_, ?_⟩ <;>
    · unfold decodePenPacket scaleFactorX scaleFactorY
      by_cases h : reportId = penDataTimingId <;> simp [h, land_ten_bits]

/-- The capability values of the scenario in the claim. -/
def profScenario : PenProfile := ⟨20000, 12000, 1024, 800, 480⟩

/-- A pen-data report body with status word 0x9000 (in proximity, in contact,
pressure 0), X = 5000 and Y = 2500 tablet units. -/
def dataScenario : List ℕ := [0x90, 0x00, 0x13, 0x88, 0x09, 0xC4]

theorem C6_pen_sample_decoding_witness :
    (penDataId = penDataId ∨ penDataId = penDataTimingId) ∧
    (onHidInputReport profScenario penDataId dataScenario =
        some (decodePenPacket profScenario penDataId dataScenario) ∧
      (decodePenPacket profScenario penDataId dataScenario).press =
        getUint16BE dataScenario 0 % 1024 ∧
      (decodePenPacket profScenario penDataId dataScenario).cpress =
        ((getUint16BE dataScenario 0 % 1024 : ℕ) : ℚ) / profScenario.tabletMaxPressure ∧
      (decodePenPacket profScenario penDataId dataScenario).x = getUint16BE dataScenario 2 ∧
      (decodePenPacket profScenario penDataId dataScenario).y = getUint16BE dataScenario 4 ∧
      (decodePenPacket profScenario penDataId dataScenario).cx =
        round ((getUint16BE dataScenario 2 : ℚ) /
          ((profScenario.tabletMaxX : ℚ) / profScenario.width)) ∧
      (decodePenPacket profScenario penDataId dataScenario).cy =
        round ((getUint16BE dataScenario 4 : ℚ) /
          ((profScenario.tabletMaxY : ℚ) / profScenario.height))) ∧
    scaleFactorX profScenario = 25 ∧
    scaleFactorY profScenario = 25 ∧
    (decodePenPacket profScenario penDataId dataScenario).x = 5000 ∧
    (decodePenPacket profScenario penDataId dataScenario).y = 2500 ∧
    (decodePenPacket profScenario penDataId dataScenario).cx = 200 ∧
    (decodePenPacket profScenario penDataId dataScenario).cy = 100 :=
  ⟨Or.inl rfl,
   C6_pen_sample_decoding profScenario penDataId dataScenario (Or.inl rfl),
   by with_unfolding_all decide, by with_unfolding_all decide,
   by with_unfolding_all decide, by with_unfolding_all decide,
   by with_unfolding_all decide, by with_unfolding_all decide⟩

/-! ## Claim C2 -/

/-- C2 (code evaluation): contrary to the claim, the data-chunk sends of
`setImage` are dispatched by `forEach` with an `async` callback whose promises
are discarded, so no data send is completed before the next one is issued, and
the end packet is issued while every data completion is still pending. For a
3-byte image split at model chunk size 2 the produced trace violates the
strict issue/completion alternation the claim requires, and contains no
data-chunk completion before the end packet at all. -/
theorem C2_chunk_sends_not_awaited :
    awaitedSequentially (setImageSendTrace ((splitToBulks [1, 2, 3] 2).map frameChunk)) =
      false ∧
    HidEvt.complete writeImageDataId ∉
      setImageSendTrace ((splitToBulks [1, 2, 3] 2).map frameChunk) ∧
    setImageSendTrace ((splitToBulks [1, 2, 3] 2).map frameChunk) =
      [HidEvt.issue writeImageStartId [imageFormat24BGR],
       HidEvt.complete writeImageStartId,
       HidEvt.issue writeImageDataId [2, 0, 1, 2],
       HidEvt.issue writeImageDataId [2, 0, 3, 0],
       HidEvt.issue writeImageEndId [0],
       HidEvt.complete writeImageEndId] := by
  refine ⟨by decide, by decide, by decide⟩

/-! ## Claim C9 -/

/-- C9: setPenColorAndWidth with width outside {0,1,2,3}, setWritingMode with
mode outside {0,1} and setBrightness with intensity outside {0,1,2,3} each
fail with the invalid-parameter error before any device I/O (empty transfer
trace), and no width in {0,1,2,3} raises that error. -/
theorem C9_parameter_validation (connected : Bool) (color : ℕ × ℕ × ℕ)
    (reads : ℕ → List ℕ) (wd md it : ℤ)
    (hc : connected = true)
    (hw : ¬ (wd = 0 ∨ wd = 1 ∨ wd = 2 ∨ wd = 3))
    (hm : ¬ (md = 0 ∨ md = 1))
    (hi : ¬ (it = 0 ∨ it = 1 ∨ it = 2 ∨ it = 3)) :
    setPenColorAndWidth connected color wd = ([], some SetErr.invalidParameter) ∧
    setWritingMode connected md = ([], some SetErr.invalidParameter) ∧
    setBrightness connected reads it = ([], some SetErr.invalidParameter) ∧
    ∀ v : ℤ, (v = 0 ∨ v = 1 ∨ v = 2 ∨ v = 3) →
      (setPenColorAndWidth connected color v).2 ≠ some SetErr.invalidParameter := by
  subst hc
  refine ⟨?_, ?_, ?_, ?_⟩
  · simp [setPenColorAndWidth, hw]
  · simp [setWritingMode, hm]
  · simp [setBrightness, hi]
  · intro v hv
    rcases hv with h | h | h | h <;> subst h <;> simp [setPenColorAndWidth]

theorem C9_parameter_validation_witness :
    (true = true) ∧
    (¬ ((5 : ℤ) = 0 ∨ (5 : ℤ) = 1 ∨ (5 : ℤ) = 2 ∨ (5 : ℤ) = 3)) ∧
    (¬ ((7 : ℤ) = 0 ∨ (7 : ℤ) = 1)) ∧
    (¬ ((-1 : ℤ) = 0 ∨ (-1 : ℤ) = 1 ∨ (-1 : ℤ) = 2 ∨ (-1 : ℤ) = 3)) ∧
    (setPenColorAndWidth true (255, 0, 0) 5 = ([], some SetErr.invalidParameter) ∧
      setWritingMode true 7 = ([], some SetErr.invalidParameter) ∧
      setBrightness true (fun _ => [0, 2]) (-1) = ([], some SetErr.invalidParameter) ∧
      ∀ v : ℤ, (v = 0 ∨ v = 1 ∨ v = 2 ∨ v = 3) →
        (setPenColorAndWidth true (255, 0, 0) v).2 ≠ some SetErr.invalidParameter) :=
  ⟨rfl, by decide, by decide, by decide,
   C9_parameter_validation true (255, 0, 0) (fun _ => [0, 2]) 5 7 (-1) rfl
     (by decide) (by decide) (by decide)⟩

/-! ## Claim C5 -/

/-- C5 (amended): when the information read fails after a successful capability
read, connect aborts with an error, but the capability-derived fields already
assigned remain in the config that getTabletInfo exposes, while the fields of
the later reads keep their prior values: negotiation is not all-or-nothing. -/
theorem C5_partial_profile_on_failure (reads : ℕ → Option (List ℕ))
    (cfg0 : DriverConfig) (dv : List ℕ)
    (hcap : reads capabilityId = some dv)
    (hinfo : reads informationId = none) :
    connectModel reads cfg0 = (false, applyCapability cfg0 dv) ∧
    getTabletInfoModel false (connectModel reads cfg0).2 =
      (false, applyCapability cfg0 dv) ∧
    (applyCapability cfg0 dv).tabletMaxX = some (getUint16BE dv 1) ∧
    (applyCapability cfg0 dv).width = some (getUint16BE dv 7) ∧
    (applyCapability cfg0 dv).deviceName = cfg0.deviceName ∧
    (applyCapability cfg0 dv).eSerial = cfg0.eSerial ∧
    (applyCapability cfg0 dv).writingArea = cfg0.writingArea := by
  have hrun : connectModel reads cfg0 = (false, applyCapability cfg0 dv) := by
    unfold connectModel connectSteps
    simp only [runReads, hcap, hinfo]
  exact ⟨hrun, by rw [hrun]; rfl, rfl, rfl, rfl, rfl, rfl⟩

/-- A capability response followed by a failing information read. -/
def capRespC5 : List ℕ := [0, 0, 100, 0, 50, 3, 255, 3, 32, 1, 224, 200]

def readsC5 : ℕ → Option (List ℕ) :=
  fun rid => if rid = capabilityId then some capRespC5 else none

set_option maxRecDepth 4000 in
/-- C5 counterexample: with a capability read that succeeds and an information
read that fails, connect aborts, yet getTabletInfo exposes a profile whose
capability fields are filled while the later fields are still unset. -/
theorem C5_counterexample :
    (connectModel readsC5 initialConfig).1 = false ∧
    (getTabletInfoModel false (connectModel readsC5 initialConfig).2).2.tabletMaxX =
      some 100 ∧
    (getTabletInfoModel false (connectModel readsC5 initialConfig).2).2.width =
      some 800 ∧
    (getTabletInfoModel false (connectModel readsC5 initialConfig).2).2.deviceName =
      none ∧
    (getTabletInfoModel false (connectModel readsC5 initialConfig).2).2.penColor =
      none := by
  with_unfolding_all decide

theorem C5_partial_profile_on_failure_witness :
    readsC5 capabilityId = some capRespC5 ∧
    readsC5 informationId = none ∧
    (connectModel readsC5 initialConfig = (false, applyCapability initialConfig capRespC5) ∧
      getTabletInfoModel false (connectModel readsC5 initialConfig).2 =
        (false, applyCapability initialConfig capRespC5) ∧
      (applyCapability initialConfig capRespC5).tabletMaxX =
        some (getUint16BE capRespC5 1) ∧
      (applyCapability initialConfig capRespC5).width = some (getUint16BE capRespC5 7) ∧
      (applyCapability initialConfig capRespC5).deviceName = initialConfig.deviceName ∧
      (applyCapability initialConfig capRespC5).eSerial = initialConfig.eSerial ∧
      (applyCapability initialConfig capRespC5).writingArea = initialConfig.writingArea) :=
  ⟨rfl, rfl,
   C5_partial_profile_on_failure readsC5 initialConfig capRespC5 rfl rfl⟩

/-! ## Claim C1 -/

lemma runInc_eq_runBatch (cfg : InkCfg) (hwm : cfg.writingMode ≠ 1) (wB : ℚ)
    (hw : wB = fixedStrokeWidth cfg.penWidth) :
    ∀ (log : List Sample) (prev : Option Sample) (st : List Seg × Option Seg),
      runInc cfg prev st log = runBatch cfg wB prev st log := by
  intro log
  induction log with
  | nil => intro prev st; rfl
  | cons s rest ih =>
      intro prev st
      have h1 : segWidthInc cfg s = wB := by
        rw [segWidthInc, if_neg hwm, hw]
      rw [runInc, runBatch, h1]
      exact ih _ _

/-- C1 (amended): in fixed-width mode (writing mode other than 1), recomputing
the stroke segments from scratch over the full sample log yields exactly the
incremental result. In pressure-width mode the two differ, because the replay
width always derives from the final log entry (see the counterexample). -/
theorem C1_replay_equivalence_fixed_width (cfg : InkCfg) (log : List Sample)
    (hwm : cfg.writingMode ≠ 1) :
    reconstructInc cfg log = reconstructBatch cfg log := by
  unfold reconstructInc reconstructBatch
  exact runInc_eq_runBatch cfg hwm _ (by rw [segWidthBatch, if_neg hwm]) log none ([], none)

/-- First sample of the C1 counterexample: inked, normalized pressure 0. -/
def sampleA : Sample := ⟨true, true, 0, 0, 0, 0, 0, 0, none, none⟩

/-- Second sample: inked, normalized pressure 1/100 (below the threshold). -/
def sampleB : Sample := ⟨true, true, 10, 1/100, 0, 0, 0, 0, none, none⟩

/-- Pressure-width configuration (writing mode 1), ink on, no writing area. -/
def cfgC1 : InkCfg := ⟨true, 1, 0, (0, 0, 0), none⟩

/-- C1 counterexample: in writing mode 1 the incremental computation opens the
single segment with width 1 (pressure of the first sample), while the
from-scratch replay opens it with width 203/200 (pressure of the final log
entry), so the two segment sets differ. -/
theorem C1_counterexample :
    reconstructInc cfgC1 [sampleA, sampleB] ≠ reconstructBatch cfgC1 [sampleA, sampleB] := by
  with_unfolding_all decide

/-- Fixed-width configuration used to instantiate the amended C1 theorem. -/
def cfgC1W : InkCfg := ⟨true, 0, 2, (0, 0, 255), none⟩

theorem C1_replay_equivalence_fixed_width_witness :
    cfgC1W.writingMode ≠ 1 ∧
    reconstructInc cfgC1W [sampleA, sampleB] = reconstructBatch cfgC1W [sampleA, sampleB] :=
  ⟨by decide, C1_replay_equivalence_fixed_width cfgC1W [sampleA, sampleB] (by decide)⟩

/-! ## Claim C4 -/

lemma filterMap_range_get (arr : List ℕ) (s : ℕ) :
    ∀ b : ℕ, (List.range b).filterMap (fun z => arr[s + z]?) = (arr.drop s).take b := by
  intro b
  induction b with
  | zero => simp
  | succ b ih =>
      rw [List.range_succ, List.filterMap_append, ih, List.take_succ]
      congr 1
      rw [List.getElem?_drop]
      cases h : arr[s + b]? <;> simp [List.filterMap, h]

lemma bulk_occupied (arr : List ℕ) (b i : ℕ) :
    (bulkAt arr b i).filterMap id = (arr.drop (i * b)).take b := by
  rw [bulkAt, List.filterMap_map]
  exact filterMap_range_get arr (i * b) b

lemma bulk_length (arr : List ℕ) (b i : ℕ) : (bulkAt arr b i).length = b := by
  simp [bulkAt]

lemma flatten_take (arr : List ℕ) (b : ℕ) :
    ∀ n : ℕ,
      ((List.range n).map (fun i => (arr.drop (i * b)).take b)).flatten =
        arr.take (n * b) := by
  intro n
  induction n with
  | zero => simp
  | succ n ih =>
      rw [List.range_succ, List.map_append, List.flatten_append, ih]
      simp only [List.map_cons, List.map_nil, List.flatten_cons, List.flatten_nil,
        List.append_nil]
      rw [Nat.succ_mul, List.take_add]

lemma ceil_mul_ge (len b : ℕ) (hb : 0 < b) : len ≤ (len + b - 1) / b * b := by
  have h1 : b * ((len + b - 1) / b) + (len + b - 1) % b = len + b - 1 :=
    Nat.div_add_mod _ _
  have h2 : (len + b - 1) % b < b := Nat.mod_lt _ hb
  rw [Nat.mul_comm]
  omega

/-- C4 (amended): splitting yields exactly ceil(length / chunkSize) chunks
whose occupied bytes, concatenated in order, reproduce the original buffer
exactly; every data packet is framed as [declared length byte, 0, ...bytes],
but the declared length byte is the fixed chunk size (the length of the padded
chunk array), which exceeds the occupied length on a final partial chunk. -/
theorem C4_chunk_split_and_framing (arr : List ℕ) (b : ℕ) (hb : 0 < b) :
    (splitToBulks arr b).length = (arr.length + b - 1) / b ∧
    ((splitToBulks arr b).map (fun e => e.filterMap id)).flatten = arr ∧
    ∀ e ∈ splitToBulks arr b,
      frameChunk e = b :: 0 :: e.map (fun o => o.getD 0) ∧
      (frameChunk e).head? = some b := by
  refine ⟨by simp [splitToBulks], ?_, ?_⟩
  · unfold splitToBulks
    rw [List.map_map]
    have hm : (List.range ((arr.length + b - 1) / b)).map
          ((fun e => e.filterMap id) ∘ bulkAt arr b) =
        (List.range ((arr.length + b - 1) / b)).map
          (fun i => (arr.drop (i * b)).take b) := by
      apply List.map_congr_left
      intro i _
      exact bulk_occupied arr b i
    rw [hm, flatten_take]
    exact List.take_of_length_le (ceil_mul_ge arr.length b hb)
  · intro e he
    obtain ⟨i, _, rfl⟩ := List.mem_map.mp he
    rw [frameChunk, bulk_length]
    exact ⟨rfl, rfl⟩

/-- C4 counterexample: a 3-byte buffer split at chunk size 2 has a final chunk
occupying one byte, yet its framed packet declares length 2, so the declared
length byte is not the occupied length. -/
theorem C4_counterexample :
    occupiedLen ((splitToBulks [5, 6, 7] 2).getD 1 []) = 1 ∧
    (frameChunk ((splitToBulks [5, 6, 7] 2).getD 1 [])).head? = some 2 ∧
    (frameChunk ((splitToBulks [5, 6, 7] 2).getD 1 [])).head? ≠
      some (occupiedLen ((splitToBulks [5, 6, 7] 2).getD 1 [])) := by
  refine ⟨by decide, by decide, by decide⟩

theorem C4_chunk_split_and_framing_witness :
    0 < 2 ∧
    ((splitToBulks [5, 6, 7] 2).length = (([5, 6, 7] : List ℕ).length + 2 - 1) / 2 ∧
      ((splitToBulks [5, 6, 7] 2).map (fun e => e.filterMap id)).flatten = [5, 6, 7] ∧
      ∀ e ∈ splitToBulks [5, 6, 7] 2,
        frameChunk e = 2 :: 0 :: e.map (fun o => o.getD 0) ∧
        (frameChunk e).head? = some 2) :=
  ⟨by decide, C4_chunk_split_and_framing [5, 6, 7] 2 (by decide)⟩

/-! ## Claims C8 and C10: point provenance -/

lemma inked_parts (cfg : InkCfg) (s : Sample) (h : inked cfg s = true) :
    s.rdy = true ∧ s.sw = true ∧ cfg.inkMode = true ∧
      isInWritingArea cfg s.cx s.cy = true := by
  unfold inked at h
  simp only [Bool.and_eq_true] at h
  exact ⟨h.1.1.1, h.1.1.2, h.1.2, h.2⟩

lemma stepWith_open_none (cfg : InkCfg) (w : ℚ) (prev : Option Sample)
    (closed : List Seg) (s : Sample) (hi : inked cfg s = true) :
    stepWith cfg w prev (closed, none) s =
      (closed, some ⟨w, cfg.penColor, [(s.cx, s.cy)]⟩) := by
  unfold stepWith
  rw [if_pos hi]

lemma stepWith_no_prev (cfg : InkCfg) (w : ℚ) (closed : List Seg) (sg0 : Seg)
    (s : Sample) (hi : inked cfg s = true) :
    stepWith cfg w none (closed, some sg0) s =
      (closed, some { sg0 with points := sg0.points ++ [(s.cx, s.cy)] }) := by
  unfold stepWith
  rw [if_pos hi]

lemma stepWith_cross (cfg : InkCfg) (w : ℚ) (p : Sample) (closed : List Seg)
    (sg0 : Seg) (s : Sample) (hi : inked cfg s = true)
    (hth : |s.cpress - p.cpress| > (1 : ℚ)/50) :
    stepWith cfg w (some p) (closed, some sg0) s =
      (closed ++ [{ sg0 with points := sg0.points ++ [(s.cx, s.cy)] }],
       some ⟨w, cfg.penColor, [(s.cx, s.cy)]⟩) := by
  unfold stepWith
  rw [if_pos hi]
  dsimp only
  rw [if_pos hth]

lemma stepWith_no_cross (cfg : InkCfg) (w : ℚ) (p : Sample) (closed : List Seg)
    (sg0 : Seg) (s : Sample) (hi : inked cfg s = true)
    (hth : ¬ (|s.cpress - p.cpress| > (1 : ℚ)/50)) :
    stepWith cfg w (some p) (closed, some sg0) s =
      (closed, some { sg0 with points := sg0.points ++ [(s.cx, s.cy)] }) := by
  unfold stepWith
  rw [if_pos hi]
  dsimp only
  rw [if_neg hth]

lemma stepWith_not_inked (cfg : InkCfg) (w : ℚ) (prev : Option Sample)
    (closed : List Seg) (op : Option Seg) (s : Sample)
    (hi : ¬ (inked cfg s = true)) :
    stepWith cfg w prev (closed, op) s = (closed ++ op.toList, none) := by
  cases op with
  | none =>
      unfold stepWith
      rw [if_neg hi]
      simp
  | some sg0 =>
      unfold stepWith
      rw [if_neg hi]
      rfl

lemma stepWith_points (cfg : InkCfg) (w : ℚ) (prev : Option Sample)
    (st : List Seg × Option Seg) (s : Sample) (P : ℤ × ℤ → Prop)
    (hst : ∀ sg ∈ allSegs st, ∀ pt ∈ sg.points, P pt)
    (hs : inked cfg s = true → P (s.cx, s.cy)) :
    ∀ sg ∈ allSegs (stepWith cfg w prev st s), ∀ pt ∈ sg.points, P pt := by
  obtain ⟨closed, op⟩ := st
  have hclosed : ∀ sg ∈ closed, ∀ pt ∈ sg.points, P pt := by
    intro sg h
    exact hst sg (by simp [allSegs, h])
  by_cases hi : inked cfg s = true
  · have hP := hs hi
    cases op with
    | none =>
        rw [stepWith_open_none cfg w prev closed s hi]
        intro sg hsg pt hpt
        simp only [allSegs, Option.toList_some, List.mem_append,
          List.mem_singleton] at hsg
        rcases hsg with hsg | rfl
        · exact hclosed sg hsg pt hpt
        · simp only [List.mem_singleton] at hpt
          subst hpt
          exact hP
    | some sg0 =>
        have hopen : ∀ pt ∈ ({ sg0 with points := sg0.points ++ [(s.cx, s.cy)] } :
            Seg).points, P pt := by
          intro pt hpt
          simp only [List.mem_append, List.mem_singleton] at hpt
          rcases hpt with hpt | rfl
          · exact hst sg0 (by simp [allSegs]) pt hpt
          · exact hP
        cases prev with
        | none =>
            rw [stepWith_no_prev cfg w closed sg0 s hi]
            intro sg hsg pt hpt
            simp only [allSegs, Option.toList_some, List.mem_append,
              List.mem_singleton] at hsg
            rcases hsg with hsg | rfl
            · exact hclosed sg hsg pt hpt
            · exact hopen pt hpt
        | some p =>
            by_cases hth : |s.cpress - p.cpress| > (1 : ℚ)/50
            · rw [stepWith_cross cfg w p closed sg0 s hi hth]
              intro sg hsg pt hpt
              simp only [allSegs, Option.toList_some, List.mem_append,
                List.mem_singleton] at hsg
              rcases hsg with (hsg | rfl) | rfl
              · exact hclosed sg hsg pt hpt
              · exact hopen pt hpt
              · simp only [List.mem_singleton] at hpt
                subst hpt
                exact hP
            · rw [stepWith_no_cross cfg w p closed sg0 s hi hth]
              intro sg hsg pt hpt
              simp only [allSegs, Option.toList_some, List.mem_append,
                List.mem_singleton] at hsg
              rcases hsg with hsg | rfl
              · exact hclosed sg hsg pt hpt
              · exact hopen pt hpt
  · rw [stepWith_not_inked cfg w prev closed op s hi]
    intro sg hsg pt hpt
    cases op with
    | none =>
        simp only [allSegs, Option.toList_none, List.append_nil] at hsg
        exact hclosed sg hsg pt hpt
    | some sg0 =>
        simp only [allSegs, Option.toList_some, Option.toList_none, List.append_nil,
          List.mem_append, List.mem_singleton] at hsg
        rcases hsg with hsg | rfl
        · exact hclosed sg hsg pt hpt
        · exact hst sg (by simp [allSegs]) pt hpt

lemma runInc_points (cfg : InkCfg) (L : List Sample) :
    ∀ (log : List Sample) (prev : Option Sample) (st : List Seg × Option Seg),
      (∀ s ∈ log, s ∈ L) →
      (∀ sg ∈ allSegs st, ∀ pt ∈ sg.points,
        ∃ s ∈ L, inked cfg s = true ∧ pt = (s.cx, s.cy)) →
      ∀ sg ∈ allSegs (runInc cfg prev st log), ∀ pt ∈ sg.points,
        ∃ s ∈ L, inked cfg s = true ∧ pt = (s.cx, s.cy) := by
  intro log
  induction log with
  | nil => intro prev st _ hst; exact hst
  | cons s rest ih =>
      intro prev st hsub hst
      rw [runInc]
      apply ih
      · intro t ht
        exact hsub t (List.mem_cons_of_mem _ ht)
      · apply stepWith_points cfg _ prev st s _ hst
        intro hi
        exact ⟨s, hsub s (List.mem_cons_self _ _), hi, rfl⟩

/-- C8: the writing-area test is inclusive on all four bounds, an unset
writing area admits every point, and every point of every emitted stroke
segment comes from a sample whose display coordinates pass the writing-area
test, so an out-of-area sample contributes no point. -/
theorem C8_writing_area_clipping (cfg cfgU : InkCfg) (x y x1 y1 x2 y2 : ℤ)
    (log : List Sample)
    (hU : cfgU.writingArea = none)
    (hA : cfg.writingArea = some (x1, y1, x2, y2)) :
    isInWritingArea cfgU x y = true ∧
    (isInWritingArea cfg x y = true ↔ x1 ≤ x ∧ x ≤ x2 ∧ y1 ≤ y ∧ y ≤ y2) ∧
    ∀ sg ∈ allSegs (reconstructInc cfg log), ∀ pt ∈ sg.points,
      ∃ s ∈ log, isInWritingArea cfg s.cx s.cy = true ∧ inked cfg s = true ∧
        pt = (s.cx, s.cy) := by
  refine ⟨?_, ?_, ?_⟩
  · unfold isInWritingArea
    rw [hU]
  · simp only [isInWritingArea, hA]
    split_ifs with h1 h2 <;> simp <;> omega
  · intro sg hsg pt hpt
    obtain ⟨s, hsL, hink, hpt'⟩ :=
      runInc_points cfg log log none ([], none) (fun _ h => h)
        (by intro sg h; simp [allSegs] at h) sg hsg pt hpt
    exact ⟨s, hsL, (inked_parts cfg s hink).2.2.2, hink, hpt'⟩

/-- Writing area 0..10 in both axes, ink on, fixed width. -/
def cfgC8 : InkCfg := ⟨true, 0, 1, (0, 0, 0), some (0, 0, 10, 10)⟩

/-- Unrestricted configuration. -/
def cfgC8U : InkCfg := ⟨true, 0, 1, (0, 0, 0), none⟩

/-- An in-area sample and an out-of-area sample for the C8 witness. -/
def sampleIn : Sample := ⟨true, true, 0, 0, 5, 5, 0, 0, none, none⟩

def sampleOut : Sample := ⟨true, true, 0, 0, 20, 20, 0, 0, none, none⟩

theorem C8_writing_area_clipping_witness :
    cfgC8U.writingArea = none ∧
    cfgC8.writingArea = some (0, 0, 10, 10) ∧
    (isInWritingArea cfgC8U 10 0 = true ∧
      (isInWritingArea cfgC8 10 0 = true ↔
        (0 : ℤ) ≤ 10 ∧ (10 : ℤ) ≤ 10 ∧ (0 : ℤ) ≤ 0 ∧ (0 : ℤ) ≤ 10) ∧
      ∀ sg ∈ allSegs (reconstructInc cfgC8 [sampleIn, sampleOut]), ∀ pt ∈ sg.points,
        ∃ s ∈ [sampleIn, sampleOut], isInWritingArea cfgC8 s.cx s.cy = true ∧
          inked cfgC8 s = true ∧ pt = (s.cx, s.cy)) :=
  ⟨rfl, rfl,
   C8_writing_area_clipping cfgC8 cfgC8U 10 0 0 0 10 10 [sampleIn, sampleOut] rfl rfl⟩

/-- C10: a sample with contact but without proximity closes any open segment
and contributes no point, even with ink enabled and coordinates inside the
writing area; globally, every emitted point comes from a sample with both
proximity and contact flags set. -/
theorem C10_proximity_required (cfg : InkCfg) (w : ℚ) (prev : Option Sample)
    (st : List Seg × Option Seg) (s : Sample) (log : List Sample)
    (hsw : s.sw = true) (hrdy : s.rdy = false)
    (hink : cfg.inkMode = true) (harea : isInWritingArea cfg s.cx s.cy = true) :
    (stepWith cfg w prev st s).2 = none ∧
    allSegs (stepWith cfg w prev st s) = allSegs st ∧
    ∀ sg ∈ allSegs (reconstructInc cfg log), ∀ pt ∈ sg.points,
      ∃ t ∈ log, t.rdy = true ∧ t.sw = true ∧ pt = (t.cx, t.cy) := by
  have hni : ¬ (inked cfg s = true) := by
    unfold inked
    rw [hrdy]
    simp
  obtain ⟨closed, op⟩ := st
  refine ⟨?_, ?_, ?_⟩
  · rw [stepWith_not_inked cfg w prev closed op s hni]
  · rw [stepWith_not_inked cfg w prev closed op s hni]
    cases op <;> simp [allSegs]
  · intro sg hsg pt hpt
    obtain ⟨t, htL, hink', hpt'⟩ :=
      runInc_points cfg log log none ([], none) (fun _ h => h)
        (by intro sg h; simp [allSegs] at h) sg hsg pt hpt
    exact ⟨t, htL, (inked_parts cfg t hink').1, (inked_parts cfg t hink').2.1, hpt'⟩

/-- A contact-without-proximity sample inside the writing area. -/
def sampleNoRdy : Sample := ⟨false, true, 0, 0, 5, 5, 0, 0, none, none⟩

/-- An open-segment state for the C10 witness. -/
def stC10 : List Seg × Option Seg := ([], some ⟨2, (0, 0, 0), [(1, 1)]⟩)

theorem C10_proximity_required_witness :
    sampleNoRdy.sw = true ∧
    sampleNoRdy.rdy = false ∧
    cfgC8.inkMode = true ∧
    isInWritingArea cfgC8 sampleNoRdy.cx sampleNoRdy.cy = true ∧
    ((stepWith cfgC8 2 none stC10 sampleNoRdy).2 = none ∧
      allSegs (stepWith cfgC8 2 none stC10 sampleNoRdy) = allSegs stC10 ∧
      ∀ sg ∈ allSegs (reconstructInc cfgC8 [sampleIn, sampleNoRdy]), ∀ pt ∈ sg.points,
        ∃ t ∈ [sampleIn, sampleNoRdy], t.rdy = true ∧ t.sw = true ∧ pt = (t.cx, t.cy)) :=
  ⟨rfl, rfl, rfl, by decide,
   C10_proximity_required cfgC8 2 none stC10 sampleNoRdy [sampleIn, sampleNoRdy]
     rfl rfl rfl (by decide)⟩

/-! ## Claim C3 -/

lemma busyPollAux_spec (sending : ℕ → Bool) :
    ∀ fuel k : ℕ, k + fuel = 21 →
      ((busyPollAux sending k fuel = none ↔
          ∀ j, k ≤ j → j ≤ 20 → sending j = true) ∧
        ∀ m, busyPollAux sending k fuel = some m →
          k ≤ m ∧ m ≤ 20 ∧ sending m = false ∧
            ∀ j, k ≤ j → j < m → sending j = true) := by
  intro fuel
  induction fuel with
  | zero =>
      intro k hk
      constructor
      · simp only [busyPollAux]
        constructor
        · intro _ j hkj hj20
          exfalso
          omega
        · intro _
          trivial
      · intro m hm
        simp only [busyPollAux] at hm
        exact absurd hm (by simp)
  | succ fuel ih =>
      intro k hk
      have hk20 : k ≤ 20 := by omega
      by_cases hs : sending k = true
      · by_cases hklt : k < 20
        · have heq : busyPollAux sending k (fuel + 1) =
              busyPollAux sending (k + 1) fuel := by
            simp only [busyPollAux]
            rw [if_pos hs, if_pos hklt]
          obtain ⟨ihn, ihs⟩ := ih (k + 1) (by omega)
          rw [heq]
          constructor
          · rw [ihn]
            constructor
            · intro h j hkj hj20
              rcases Nat.eq_or_lt_of_le hkj with heq2 | hlt
              · exact heq2 ▸ hs
              · exact h j hlt hj20
            · intro h j h1 h2
              exact h j (by omega) h2
          · intro m hm
            obtain ⟨h1, h2, h3, h4⟩ := ihs m hm
            refine ⟨by omega, h2, h3, ?_⟩
            intro j hkj hjm
            rcases Nat.eq_or_lt_of_le hkj with heq2 | hlt
            · exact heq2 ▸ hs
            · exact h4 j hlt hjm
        · have heq : busyPollAux sending k (fuel + 1) = none := by
            simp only [busyPollAux]
            rw [if_pos hs, if_neg hklt]
          rw [heq]
          constructor
          · constructor
            · intro _ j hkj hj20
              have hj : j = k := by omega
              rw [hj]
              exact hs
            · intro _
              rfl
          · intro m hm
            exact absurd hm (by simp)
      · have heq : busyPollAux sending k (fuel + 1) = some k := by
          simp only [busyPollAux]
          rw [if_neg hs]
        rw [heq]
        constructor
        · constructor
          · intro h
            exact absurd h (by simp)
          · intro h
            exact absurd (h k le_rfl hk20) hs
        · intro m hm
          have hmk : m = k := by
            have := Option.some.inj hm
            omega
          subst hmk
          refine ⟨le_rfl, hk20, ?_, ?_⟩
          · cases hb : sending m with
            | true => exact absurd hb hs
            | false => rfl
          · intro j h1 h2
            exfalso
            omega

lemma busyPollLoop_none_iff (sending : ℕ → Bool) :
    busyPollLoop sending = none ↔ ∀ j, j ≤ 20 → sending j = true := by
  have h := (busyPollAux_spec sending 21 0 rfl).1
  constructor
  · intro hh j hj
    exact h.mp hh j (Nat.zero_le j) hj
  · intro hh
    exact h.mpr (fun j _ hj => hh j hj)

lemma busyPollLoop_some (sending : ℕ → Bool) (m : ℕ)
    (h : busyPollLoop sending = some m) :
    m ≤ 20 ∧ sending m = false ∧ ∀ j, j < m → sending j = true := by
  obtain ⟨h1, h2, h3, h4⟩ := (busyPollAux_spec sending 21 0 rfl).2 m h
  exact ⟨h2, h3, fun j hj => h4 j (Nat.zero_le j) hj⟩

/-- C3: with a connected device and a valid image buffer, the setImage
single-flight guard polls the sending flag at 500 ms intervals for at most 20
attempts: it fails with Busy exactly when the flag is held at every check in
the 10 second window, in which case no packet at all has been sent and the
full 10000 ms were waited; otherwise it proceeds at the first free poll
(within 10 seconds) and only then performs the transfer. Moreover, every send
of the setImage body happens between acquiring and releasing the flag, so the
chunk writes of two concurrent calls are serialized by the guard. -/
theorem C3_single_flight_guard (connected : Bool) (wd ht : ℕ) (sending : ℕ → Bool)
    (img : List ℕ) (hc : connected = true) (hlen : img.length = wd * ht * 3) :
    ((setImageModel connected wd ht sending img).err = some ImgErr.busy ↔
      ∀ k, k ≤ 20 → sending k = true) ∧
    ((setImageModel connected wd ht sending img).err = some ImgErr.busy →
      (setImageModel connected wd ht sending img).trace = [] ∧
      500 * (setImageModel connected wd ht sending img).waits = 10000) ∧
    ((setImageModel connected wd ht sending img).err = none →
      sending (setImageModel connected wd ht sending img).waits = false ∧
      (∀ j, j < (setImageModel connected wd ht sending img).waits → sending j = true) ∧
      500 * (setImageModel connected wd ht sending img).waits ≤ 10000 ∧
      (setImageModel connected wd ht sending img).trace =
        setImageSendTrace ((splitToBulks img chunkSize).map frameChunk)) ∧
    (∃ mid, setImageBody ((splitToBulks img chunkSize).map frameChunk) =
        Act.setFlag true :: (mid ++ [Act.setFlag false]) ∧
        ∀ a ∈ mid, ∃ r p, a = Act.send r p) := by
  subst hc
  have hstep : setImageModel true wd ht sending img =
      (match busyPollLoop sending with
       | none => ⟨[], some ImgErr.busy, 20⟩
       | some k =>
          ⟨setImageSendTrace ((splitToBulks img chunkSize).map frameChunk), none, k⟩) := by
    unfold setImageModel
    rw [if_neg (by simp), if_neg (by simp [hlen])]
  have hbody : ∃ mid, setImageBody ((splitToBulks img chunkSize).map frameChunk) =
      Act.setFlag true :: (mid ++ [Act.setFlag false]) ∧
      ∀ a ∈ mid, ∃ r p, a = Act.send r p := by
    refine ⟨(Act.send writeImageStartId [imageFormat24BGR] ::
        ((splitToBulks img chunkSize).map frameChunk).map
          (fun f => Act.send writeImageDataId f)) ++ [Act.send writeImageEndId [0]],
      ?_, ?_⟩
    · unfold setImageBody
      simp
    · intro a ha
      simp only [List.mem_append, List.mem_cons, List.mem_map,
        List.mem_singleton, List.not_mem_nil, or_false] at ha
      rcases ha with (rfl | ⟨f, _, rfl⟩) | rfl
      · exact ⟨writeImageStartId, [imageFormat24BGR], rfl⟩
      · exact ⟨writeImageDataId, f, rfl⟩
      · exact ⟨writeImageEndId, [0], rfl⟩
  rcases hbp : busyPollLoop sending with _ | k
  · rw [hbp] at hstep
    refine ⟨?_, ?_, ?_, hbody⟩
    · constructor
      · intro _ j hj
        exact (busyPollLoop_none_iff sending).mp hbp j hj
      · intro _
        rw [hstep]
    · intro _
      rw [hstep]
      exact ⟨rfl, by norm_num⟩
    · intro h
      rw [hstep] at h
      exact absurd h (by simp)
  · rw [hbp] at hstep
    obtain ⟨hk20, hkfree, hkbefore⟩ := busyPollLoop_some sending k hbp
    refine ⟨?_, ?_, ?_, hbody⟩
    · constructor
      · intro h
        rw [hstep] at h
        exact absurd h (by simp)
      · intro hall
        exact absurd ((busyPollLoop_none_iff sending).mpr hall) (by rw [hbp]; simp)
    · intro h
      rw [hstep] at h
      exact absurd h (by simp)
    · intro _
      rw [hstep]
      exact ⟨hkfree, hkbefore, show 500 * k ≤ 10000 by omega, rfl⟩

/-- The sending flag of the C3 witness frees at the third poll. -/
def sendingW : ℕ → Bool := fun k => decide (k < 3)

theorem C3_single_flight_guard_witness :
    (true = true) ∧
    ([9, 9, 9] : List ℕ).length = 1 * 1 * 3 ∧
    (((setImageModel true 1 1 sendingW [9, 9, 9]).err = some ImgErr.busy ↔
        ∀ k, k ≤ 20 → sendingW k = true) ∧
      ((setImageModel true 1 1 sendingW [9, 9, 9]).err = some ImgErr.busy →
        (setImageModel true 1 1 sendingW [9, 9, 9]).trace = [] ∧
        500 * (setImageModel true 1 1 sendingW [9, 9, 9]).waits = 10000) ∧
      ((setImageModel true 1 1 sendingW [9, 9, 9]).err = none →
        sendingW (setImageModel true 1 1 sendingW [9, 9, 9]).waits = false ∧
        (∀ j, j < (setImageModel true 1 1 sendingW [9, 9, 9]).waits →
          sendingW j = true) ∧
        500 * (setImageModel true 1 1 sendingW [9, 9, 9]).waits ≤ 10000 ∧
        (setImageModel true 1 1 sendingW [9, 9, 9]).trace =
          setImageSendTrace ((splitToBulks [9, 9, 9] chunkSize).map frameChunk)) ∧
      ∃ mid, setImageBody ((splitToBulks [9, 9, 9] chunkSize).map frameChunk) =
          Act.setFlag true :: (mid ++ [Act.setFlag false]) ∧
          ∀ a ∈ mid, ∃ r p, a = Act.send r p) :=
  ⟨rfl, rfl,
   C3_single_flight_guard true 1 1 sendingW [9, 9, 9] rfl rfl⟩

/-! ## Claim C7 -/

lemma head?_append_of_ne_nil {α : Type} (l l2 : List α) (h : l ≠ []) :
    (l ++ l2).head? = l.head? := by
  cases l with
  | nil => exact absurd rfl h
  | cons a t => rfl

lemma chain_snoc_replace (closed : List Seg) (sg sg2 : Seg)
    (hhead : sg2.points.head? = sg.points.head?)
    (hc : List.Chain' junction (closed ++ [sg])) :
    List.Chain' junction (closed ++ [sg2]) := by
  rw [List.chain'_append] at hc ⊢
  obtain ⟨h1, _, h3⟩ := hc
  refine ⟨h1, List.chain'_singleton _, ?_⟩
  intro x hx y hy
  simp only [List.head?_cons, Option.mem_def, Option.some.injEq] at hy
  subst hy
  have hj := h3 x hx sg (by simp)
  exact ⟨hj.1, hj.2.trans hhead.symm⟩

lemma chain_snoc_extend (closed : List Seg) (sg : Seg) (w : ℚ) (c : ℕ × ℕ × ℕ)
    (pt : ℤ × ℤ) (hne : sg.points ≠ [])
    (hc : List.Chain' junction (closed ++ [sg])) :
    List.Chain' junction
      ((closed ++ [{ sg with points := sg.points ++ [pt] }]) ++
        [(⟨w, c, [pt]⟩ : Seg)]) := by
  rw [List.chain'_append]
  refine ⟨?_, List.chain'_singleton _, ?_⟩
  · exact chain_snoc_replace closed sg _ (head?_append_of_ne_nil _ _ hne) hc
  · intro x hx y hy
    simp only [List.head?_cons, Option.mem_def, Option.some.injEq] at hy
    subst hy
    rw [List.getLast?_concat, Option.mem_def, Option.some.injEq] at hx
    subst hx
    constructor
    · simp
    · simp [List.getLast?_concat]

lemma runInc_all_inked (cfg : InkCfg) :
    ∀ log : List Sample, (∀ t ∈ log, inked cfg t = true) →
      ∀ (p : Sample) (closed : List Seg) (sg : Seg),
        sg.points ≠ [] →
        List.Chain' junction (closed ++ [sg]) →
        (runInc cfg (some p) (closed, some sg) log).1.length =
            closed.length + crossAux p log ∧
        (∃ sg2, (runInc cfg (some p) (closed, some sg) log).2 = some sg2 ∧
            sg2.points ≠ []) ∧
        List.Chain' junction (allSegs (runInc cfg (some p) (closed, some sg) log)) := by
  intro log
  induction log with
  | nil =>
      intro _ p closed sg hne hc
      refine ⟨by simp [runInc, crossAux], ⟨sg, rfl, hne⟩, ?_⟩
      simpa [runInc, allSegs] using hc
  | cons s rest ih =>
      intro hall p closed sg hne hc
      have hs : inked cfg s = true := hall s (List.mem_cons_self _ _)
      have hrest : ∀ t ∈ rest, inked cfg t = true :=
        fun t ht => hall t (List.mem_cons_of_mem _ ht)
      rw [runInc]
      by_cases hth : |s.cpress - p.cpress| > (1 : ℚ)/50
      · rw [stepWith_cross cfg (segWidthInc cfg s) p closed sg s hs hth]
        obtain ⟨hlen, hopen, hchain⟩ :=
          ih hrest s (closed ++ [{ sg with points := sg.points ++ [(s.cx, s.cy)] }])
            ⟨segWidthInc cfg s, cfg.penColor, [(s.cx, s.cy)]⟩ (by simp)
            (chain_snoc_extend closed sg _ _ _ hne hc)
        refine ⟨?_, hopen, hchain⟩
        rw [hlen]
        simp only [crossAux, if_pos hth, List.length_append, List.length_singleton]
        omega
      · rw [stepWith_no_cross cfg (segWidthInc cfg s) p closed sg s hs hth]
        obtain ⟨hlen, hopen, hchain⟩ :=
          ih hrest s closed { sg with points := sg.points ++ [(s.cx, s.cy)] }
            (by simp)
            (chain_snoc_replace closed sg _ (head?_append_of_ne_nil _ _ hne) hc)
        refine ⟨?_, hopen, hchain⟩
        rw [hlen]
        simp only [crossAux, if_neg hth]
        omega

/-- C7: for a nonempty sample sequence in which every sample is inked, the
number of emitted stroke segments is the number of consecutive-sample pairs
whose normalized-pressure difference exceeds 0.02, plus one; moreover the
segments chain at the junctions: each segment other than the last is nonempty
and ends at exactly the point with which its successor segment starts, the
junction point having been appended to the closing segment (which keeps its
original width) and again as the first point of the new segment. -/
theorem C7_threshold_segmentation (cfg : InkCfg) (log : List Sample)
    (hne : log ≠ [])
    (hall : ∀ t ∈ log, inked cfg t = true) :
    segCount (reconstructInc cfg log) = crossings log + 1 ∧
    List.Chain' junction (allSegs (reconstructInc cfg log)) := by
  cases log with
  | nil => exact absurd rfl hne
  | cons s rest =>
      have hs : inked cfg s = true := hall s (List.mem_cons_self _ _)
      unfold reconstructInc
      rw [runInc, stepWith_open_none cfg (segWidthInc cfg s) none [] s hs]
      obtain ⟨hlen, ⟨sg2, hopen, _⟩, hchain⟩ :=
        runInc_all_inked cfg rest (fun t ht => hall t (List.mem_cons_of_mem _ ht)) s []
          ⟨segWidthInc cfg s, cfg.penColor, [(s.cx, s.cy)]⟩ (by simp)
          (by simp)
      refine ⟨?_, hchain⟩
      unfold segCount
      rw [hlen, hopen]
      simp [crossings]

/-- The sample log of the C7 witness: inked throughout, with pressures
0, 1/10, 11/100, 1/2 giving exactly two threshold crossings. -/
def s70 : Sample := ⟨true, true, 0, 0, 0, 0, 0, 0, none, none⟩

def s71 : Sample := ⟨true, true, 102, 1/10, 1, 1, 0, 0, none, none⟩

def s72 : Sample := ⟨true, true, 113, 11/100, 2, 2, 0, 0, none, none⟩

def s73 : Sample := ⟨true, true, 512, 1/2, 3, 3, 0, 0, none, none⟩

def cfgC7 : InkCfg := ⟨true, 0, 1, (0, 0, 0), none⟩

theorem C7_threshold_segmentation_witness :
    ([s70, s71, s72, s73] : List Sample) ≠ [] ∧
    (∀ t ∈ [s70, s71, s72, s73], inked cfgC7 t = true) ∧
    (segCount (reconstructInc cfgC7 [s70, s71, s72, s73]) =
        crossings [s70, s71, s72, s73] + 1 ∧
      List.Chain' junction (allSegs (reconstructInc cfgC7 [s70, s71, s72, s73]))) ∧
    crossings [s70, s71, s72, s73] = 2 ∧
    segCount (reconstructInc cfgC7 [s70, s71, s72, s73]) = 3 :=
  ⟨by simp, by decide,
   C7_threshold_segmentation cfgC7 [s70, s71, s72, s73] (by simp) (by decide),
   by with_unfolding_all decide, by with_unfolding_all decide⟩

end WacomStu540
